import Mathlib

/-
Verification of the session-orchestration core of the agent API server:
the in-memory session registry (`SessionManager`), its lifecycle operations
(create / resume / cancel / delete / cleanup), the background execution
driver (`_run_agent`) that classifies a stream of heterogeneous events, and
the defensive event serializer (`_serialize_message` / `_serialize_value`).

The Python source is shallowly embedded: stateful methods become explicit
state-passing functions over a `Registry` value, the event stream becomes a
`List Message`, timestamps become `Int` (seconds), and Python exceptions in
the serializer become an explicit `raising` constructor of the value type.
-/

namespace AgentSessions

/-! ## Python values and JSON-compatible values (for the serializer)

`PyVal` models the dynamically-typed values reachable from an event object:
primitives, lists, dicts, objects with a `__dict__` attribute view, plain
objects whose `str()` works, and `raising`, an object without `__dict__`
whose string conversion raises with the given message (the failure mode the
serializer must contain).  `JVal` is the JSON-compatible output. -/

inductive PyVal where
  | vstr (s : String)
  | vint (n : Int)
  | vbool (b : Bool)
  | vnone
  | vlist (xs : List PyVal)
  | vdict (kvs : List (String × PyVal))
  | vobj (fields : List (String × PyVal))
  | plain (s : String)
  | raising (msg : String)
deriving Repr

inductive JVal where
  | jstr (s : String)
  | jint (n : Int)
  | jbool (b : Bool)
  | jnull
  | jlist (xs : List JVal)
  | jdict (kvs : List (String × JVal))
deriving Repr

/-- Python's `key.startswith("_")`: true when the first character is an
underscore.  (Stated on the character list so that it evaluates in the
kernel; `String.startsWith` itself does not.) -/
def startsUnderscore (k : String) : Bool :=
  match k.data with
  | [] => false
  | c :: _ => c == '_'

/-- `str()` rendering used by the fallback branches of the serializer.
Container renderings are abstracted (no claim depends on them). -/
def pyStr : PyVal → String
  | .vstr s => s
  | .vint n => toString n
  | .vbool b => cond b "True" "False"
  | .vnone => "None"
  | .plain s => s
  | _ => "<object>"

mutual

/-- `SessionInfo._serialize_value`: primitives as-is, lists element-wise,
dicts key-wise, objects by their non-underscore `__dict__` fields, `str()`
fallback otherwise.  The method wraps its whole body in `try/except`, so a
value whose conversion raises is replaced in place by the
`<value_serialization_error: ...>` placeholder and the function never
raises. -/
def serializeValue : PyVal → JVal
  | .vstr s => .jstr s
  | .vint n => .jint n
  | .vbool b => .jbool b
  | .vnone => .jnull
  | .vlist xs => .jlist (serializeList xs)
  | .vdict kvs => .jdict (serializeDictKVs kvs)
  | .vobj fs => .jdict (serializeObjKVs fs)
  | .plain s => .jstr s
  | .raising m => .jstr ("<value_serialization_error: " ++ m ++ ">")

/-- Element-wise serialization of a Python list. -/
def serializeList : List PyVal → List JVal
  | [] => []
  | v :: r => serializeValue v :: serializeList r

/-- Key-wise serialization of a Python dict (no key filtering). -/
def serializeDictKVs : List (String × PyVal) → List (String × JVal)
  | [] => []
  | (k, v) :: r => (k, serializeValue v) :: serializeDictKVs r

/-- Serialization of an object's `__dict__`: fields whose name starts with
an underscore are skipped (`continue`), the rest serialized in order. -/
def serializeObjKVs : List (String × PyVal) → List (String × JVal)
  | [] => []
  | (k, v) :: r =>
    if startsUnderscore k then serializeObjKVs r
    else (k, serializeValue v) :: serializeObjKVs r

end

/-- `SessionInfo._serialize_message`: objects with `__dict__` are converted
field-wise (underscore fields skipped); anything else falls back to `str()`,
with a raising `str()` caught by the outer `try/except` and replaced by the
`<message_serialization_error: ...>` placeholder. -/
def serializeMessage : PyVal → JVal
  | .vobj fs => .jdict (serializeObjKVs fs)
  | .raising m => .jstr ("<message_serialization_error: " ++ m ++ ">")
  | v => .jstr (pyStr v)

/-! ## Data model -/

/-- `models.SessionStatus`. -/
inductive SessionStatus where
  | pending
  | running
  | completed
  | error
  | cancelled
deriving DecidableEq, Repr

/-- An `asyncio.Task` handle, reduced to its observable interface:
whether it has finished and whether cancellation has been requested. -/
structure TaskHandle where
  done : Bool
  cancelRequested : Bool
deriving DecidableEq, Repr

/-- `ClaudeAgentOptions`: the core only ever touches the `resume` token;
the remaining configuration is opaque and forwarded untouched. -/
structure ClaudeAgentOptions where
  resume : Option String
  rest : String
deriving DecidableEq, Repr

/-- The `session.result` dict built by `_run_agent` on a terminal event:
each entry is the corresponding message attribute when present, else null. -/
structure ResultRecord where
  rsessionId : Option String
  rnumTurns : Option Int
  rdurationMs : Option Int
  rtotalCostUsd : Option String
  rusage : Option JVal
deriving Repr

/-- `models.MessageInfo`: class name tag, serialized payload, timestamp. -/
structure MessageInfo where
  mtype : String
  content : JVal
  timestamp : Int
deriving Repr

/-- `session_manager.SessionInfo`.  `clientPresent` models
`client is not None`; `everCompleted` is a ghost history flag (not a field
of the source class) recording that some run stored a completed result. -/
structure SessionInfo where
  session_id : String
  status : SessionStatus
  options : ClaudeAgentOptions
  prompt : String
  created_at : Int
  clientPresent : Bool
  messages : List MessageInfo
  result : Option ResultRecord
  error : Option String
  start_time : Option Int
  end_time : Option Int
  task : Option TaskHandle
  claude_session_id : Option String
  everCompleted : Bool
deriving Repr

/-- `SessionInfo.__init__`. -/
def freshSession (id : String) (opts : ClaudeAgentOptions) (prompt : String)
    (t : Int) : SessionInfo :=
  ⟨id, .pending, opts, prompt, t, false, [], none, none, none, none, none, none, false⟩

/-- A stream event, by its observable attributes.  An `Option` field is
`none` when the attribute is absent (`hasattr` is false); `is_error` folds
`hasattr` and truthiness into one flag.  `payload` is the `__dict__` view
handed to the serializer; `err_result` is the `result` attribute read in the
error branch. -/
structure Message where
  className : String
  payload : PyVal
  is_error : Bool
  err_result : Option String
  subtype : Option String
  mtype : Option String
  session_id : Option String
  num_turns : Option Int
  duration_ms : Option Int
  total_cost_usd : Option String
  usage : Option PyVal
deriving Repr

/-- Python truthiness of an optional string: `None` and `""` are falsy. -/
def truthyOpt : Option String → Bool
  | none => false
  | some s => !(s == "")

/-! ## Execution driver (`SessionManager._run_agent`) -/

/-- The layered completion heuristic of `_run_agent`: an explicit
`final_result` subtype, an explicit `result`/`final`/`completion` type tag,
or the co-presence of a turn count and a duration. -/
def isFinal (m : Message) : Bool :=
  m.subtype == some "final_result" ||
  m.mtype == some "result" || m.mtype == some "final" || m.mtype == some "completion" ||
  (m.num_turns.isSome && m.duration_ms.isSome)

/-- The `session.result` dict stored on a terminal event: every field
independently optional. -/
def mkResultRecord (m : Message) : ResultRecord :=
  ⟨m.session_id, m.num_turns, m.duration_ms, m.total_cost_usd, m.usage.map serializeValue⟩

/-- `SessionInfo.add_message`: append the serialized event. -/
def addMessage (s : SessionInfo) (t : Int) (m : Message) : SessionInfo :=
  { s with messages := s.messages ++ [⟨m.className, serializeMessage m.payload, t⟩] }

/-- Early capture of the engine-issued session id: only when none is
recorded yet and the event carries a truthy one. -/
def earlyCapture (s : SessionInfo) (m : Message) : SessionInfo :=
  if !(truthyOpt s.claude_session_id) && truthyOpt m.session_id then
    { s with claude_session_id := m.session_id }
  else s

/-- One iteration of the event loop of `_run_agent`: serialize and append,
early-capture the engine session id, then classify.  The returned flag is
true when the loop `break`s (error or terminal event). -/
def processOne (s : SessionInfo) (t : Int) (m : Message) : SessionInfo × Bool :=
  let s1 := earlyCapture (addMessage s t m) m
  if m.is_error then
    ({ s1 with
        status := .error,
        error := some (match m.err_result with
          | some r => r
          | none => "Unknown error occurred") }, true)
  else if isFinal m then
    let s2 := { s1 with
        status := .completed,
        result := some (mkResultRecord m),
        everCompleted := true }
    (if truthyOpt m.session_id then { s2 with claude_session_id := m.session_id }
     else s2, true)
  else (s1, false)

/-- The event loop: consume events in emission order until a `break`. -/
def runStream (s : SessionInfo) (t : Int) : List Message → SessionInfo
  | [] => s
  | m :: rest =>
    let step := processOne s t m
    if step.2 then step.1 else runStream step.1 t rest

/-- The head of `_run_agent`: mark running, stamp `start_time`, connect the
client (no suspension separates these writes). -/
def driverStart (s : SessionInfo) (t : Int) : SessionInfo :=
  { s with status := .running, start_time := some t, clientPresent := true }

/-- The `finally` clause: stamp `end_time` (disconnect failures swallowed). -/
def stampEnd (s : SessionInfo) (t : Int) : SessionInfo :=
  { s with end_time := some t }

/-- A complete `_run_agent` invocation on the success path (no exception,
no task cancellation): start, consume the stream, stamp `end_time`.
Message timestamps are abstracted to a single clock value `tMsg`. -/
def runAgentNoExc (s : SessionInfo) (tStart tMsg tEnd : Int)
    (msgs : List Message) : SessionInfo :=
  stampEnd (runStream (driverStart s tStart) tMsg msgs) tEnd

/-- The `except asyncio.CancelledError` handler of `_run_agent`. -/
def driverCancelled (s : SessionInfo) : SessionInfo :=
  { s with status := .cancelled, error := some "Session was cancelled" }

/-- The `except Exception` handler of `_run_agent`. -/
def driverExc (s : SessionInfo) (e : String) : SessionInfo :=
  { s with status := .error, error := some e }

/-! ## Session store (`SessionManager`)

`self.sessions` is an insertion-ordered dict, embedded as an association
list.  Every operation below is the body of one lock-protected critical
section; the registry value passed in and out makes the mutation explicit. -/

abbrev Registry : Type := List (String × SessionInfo)

/-- `self.sessions.get(session_id)`. -/
def lookupReg (reg : Registry) (id : String) : Option SessionInfo :=
  match List.find? (fun p => p.1 == id) reg with
  | some p => some p.2
  | none => none

/-- In-place mutation of the record stored under `id` (a Python object
mutation is visible through the dict without re-insertion). -/
def updateReg (reg : Registry) (id : String) (s : SessionInfo) : Registry :=
  List.map (fun p => if p.1 == id then (id, s) else p) reg

/-- `self.sessions[id] = s` on a dict: overwrite in place when the key
exists, append otherwise. -/
def insertReg (reg : Registry) (id : String) (s : SessionInfo) : Registry :=
  if (List.find? (fun p => p.1 == id) reg).isSome then updateReg reg id s
  else reg ++ [(id, s)]

/-- `SessionManager.create_session` on the fresh-session path: insert a
pending record, then launch `_run_agent` as a background task (the task
handle lands on the stored record before the driver first runs). -/
def createSession (reg : Registry) (id prompt : String)
    (opts : ClaudeAgentOptions) (t : Int) : SessionInfo × Registry :=
  let s := { freshSession id opts prompt t with task := some ⟨false, false⟩ }
  (s, insertReg reg id s)

inductive ResumeError where
  | notFound
  | conflict
  | notResumable
deriving DecidableEq, Repr

/-- The delimiter prepended to the continuation prompt on resume. -/
def resumeDelimiter : String := "\n\n--- セッション再開 ---\n"

/-- Successful-resume outcome: the updated record (also stored in the
registry) and the prior task handle after the defensive cancel request. -/
structure ResumeOk where
  session : SessionInfo
  staleTask : Option TaskHandle
deriving Repr

/-- The in-place mutation `resume_session` applies to the existing record
on success: reset to `pending`, append the continuation prompt, install the
caller's options with the stored engine session id as resume token, clear
`error`/`start_time`/`end_time` (note: `result` is not cleared), attach a
fresh driver task. -/
def resumeUpdated (ex : SessionInfo) (prompt : String)
    (opts : ClaudeAgentOptions) : SessionInfo :=
  { ex with
    status := SessionStatus.pending,
    prompt := ex.prompt ++ resumeDelimiter ++ prompt,
    options := { opts with resume := ex.claude_session_id },
    error := none,
    start_time := none,
    end_time := none,
    task := some ⟨false, false⟩ }

/-- The defensive cancel request resume issues against the prior task:
`if task and not task.done(): task.cancel()`. -/
def cancelStale (tk : TaskHandle) : TaskHandle :=
  if !tk.done then { tk with cancelRequested := true } else tk

/-- `SessionManager.resume_session`.  Note the order of the source's
checks: the record must exist *and* hold a truthy engine session id before
the running check is reached; a record without one is rejected
`notResumable` regardless of its status. -/
def resumeSession (reg : Registry) (id prompt : String)
    (opts : ClaudeAgentOptions) : Except ResumeError ResumeOk × Registry :=
  match lookupReg reg id with
  | some ex =>
    if truthyOpt ex.claude_session_id then
      if ex.status = .running then (.error .conflict, reg)
      else
        (.ok ⟨resumeUpdated ex prompt opts, ex.task.map cancelStale⟩,
         updateReg reg id (resumeUpdated ex prompt opts))
    else (.error .notResumable, reg)
  | none => (.error .notFound, reg)

/-- The observable side requests of `SessionManager.cancel_session`:
whether `client.interrupt()` was attempted and whether `task.cancel()`
was called. -/
structure CancelEffects where
  interruptRequested : Bool
  taskCancelRequested : Bool
deriving DecidableEq, Repr

/-- The in-place mutation `cancel_session` applies to a running record:
mark cancelled, stamp `end_time`, request cancellation of the task. -/
def cancelUpdated (s : SessionInfo) (tNow : Int) : SessionInfo :=
  { s with
    status := SessionStatus.cancelled,
    end_time := some tNow,
    task := s.task.map fun tk => { tk with cancelRequested := true } }

/-- `SessionManager.cancel_session`.  `interruptRaises` models whether the
best-effort `client.interrupt()` call raises; the source swallows that
failure, so the outcome cannot depend on it. -/
def cancelSession (reg : Registry) (id : String) (tNow : Int)
    (interruptRaises : Bool) : Bool × Registry × CancelEffects :=
  match lookupReg reg id with
  | none => (false, reg, ⟨false, false⟩)
  | some s =>
    if s.status = .running then
      (true, updateReg reg id (cancelUpdated s tNow),
       ⟨s.clientPresent, s.task.isSome⟩)
    else (false, reg, ⟨false, false⟩)

/-- Modelled from the spec: `SessionManager.delete_session` is called by the
HTTP layer (`main.delete_session` unpacks `(success, error_message,
status_before)` and maps a running `status_before` to 400 and any other
failure to 404), but its definition is not among the provided sources.  Per
the spec, `delete(id)` fails if the id is absent (NotFound) or if the
record's status is `running` (Conflict — the caller must cancel first), and
otherwise removes the record and returns its status prior to removal. -/
def deleteSession (reg : Registry) (id : String) :
    (Bool × Option String × Option SessionStatus) × Registry :=
  match lookupReg reg id with
  | none => ((false, some ("Session " ++ id ++ " not found"), none), reg)
  | some s =>
    if s.status = .running then
      ((false, some ("Session " ++ id ++ " is running"), some .running), reg)
    else
      ((true, none, some s.status), List.filter (fun p => !(p.1 == id)) reg)

/-- The sweep condition of `SessionManager.cleanup_old_sessions`: the
record's `end_time` is set and strictly older than the cutoff
`now - max_age_hours * 3600`.  The status is not consulted. -/
def sweepCond (maxAgeHours now : Int) (s : SessionInfo) : Bool :=
  match s.end_time with
  | some t => t < now - maxAgeHours * 3600
  | none => false

/-- `SessionManager.cleanup_old_sessions`: delete every record matching
`sweepCond`, return how many were deleted. -/
def cleanupOldSessions (reg : Registry) (maxAgeHours now : Int) : Nat × Registry :=
  ((List.filter (fun p => sweepCond maxAgeHours now p.2) reg).length,
   List.filter (fun p => !(sweepCond maxAgeHours now p.2)) reg)

/-- `SessionManager.list_sessions`: a read-only snapshot of the keys. -/
def listSessions (reg : Registry) : List String := List.map (fun p => p.1) reg

/-! ## Atomic driver steps and reachable registry states

`DStep` is one atomic mutation a `_run_agent` invocation performs on its
record, guarded by the status in which the source performs it: the head of
the run fires on the `pending` record it was launched for; event-loop
iterations run while `running`; the `CancelledError` handler fires after a
store-side cancel has already marked the record `cancelled`; the generic
exception handler fires while the run is live; the `finally` clause fires
once the run is past its head.  `Reach` closes the empty registry under the
store operations and driver steps. -/

inductive DStep : SessionInfo → SessionInfo → Prop where
  | start (s : SessionInfo) (t : Int) :
      s.status = .pending → DStep s (driverStart s t)
  | event (s : SessionInfo) (t : Int) (m : Message) :
      s.status = .running → DStep s (processOne s t m).1
  | cancelledErr (s : SessionInfo) :
      s.status = .cancelled → DStep s (driverCancelled s)
  | exc (s : SessionInfo) (e : String) :
      s.status = .running ∨ s.status = .cancelled → DStep s (driverExc s e)
  | finish (s : SessionInfo) (t : Int) :
      s.status ≠ .pending → DStep s (stampEnd s t)

inductive Reach : Registry → Prop where
  | init : Reach []
  | create (reg : Registry) (id prompt : String) (opts : ClaudeAgentOptions) (t : Int) :
      Reach reg → Reach (createSession reg id prompt opts t).2
  | resume (reg : Registry) (id prompt : String) (opts : ClaudeAgentOptions) :
      Reach reg → Reach (resumeSession reg id prompt opts).2
  | cancel (reg : Registry) (id : String) (t : Int) (b : Bool) :
      Reach reg → Reach (cancelSession reg id t b).2.1
  | delete (reg : Registry) (id : String) :
      Reach reg → Reach (deleteSession reg id).2
  | cleanup (reg : Registry) (h now : Int) :
      Reach reg → Reach (cleanupOldSessions reg h now).2
  | driver (reg : Registry) (id : String) (s s' : SessionInfo) :
      Reach reg → lookupReg reg id = some s → DStep s s' →
      Reach (updateReg reg id s')

/-! ## Invariant predicates -/

/-- Per-record invariant: `error` is non-null only in the terminal failure
statuses, and `result` is non-null only once some run has stored a
completed result (tracked by the ghost flag `everCompleted`). -/
def SOk (s : SessionInfo) : Prop :=
  (s.error ≠ none → s.status = .error ∨ s.status = .cancelled) ∧
  (s.result ≠ none → s.everCompleted = true)

/-- Every stored record satisfies the per-record invariant. -/
def RegOk (reg : Registry) : Prop := ∀ p ∈ reg, SOk p.2

/-- Every stored record's `session_id` equals its key. -/
def WellKeyed (reg : Registry) : Prop := ∀ p ∈ reg, p.2.session_id = p.1

/-! ## Concrete scenario (used by counterexamples and witnesses)

One session `"s1"` is created, its driver starts, and from the running
state the scenario branches: a terminal event completes the run and the
session is resumed (`sessE`), or the stream exhausts and `end_time` is
stamped while the status is still `running` (`sessSwp`). -/

def optsX : ClaudeAgentOptions := ⟨none, ""⟩

/-- The fresh record created for `"s1"` (status `pending`). -/
def sessA : SessionInfo := (createSession [] "s1" "go" optsX 0).1

def regA : Registry := (createSession [] "s1" "go" optsX 0).2

/-- After the driver's head: `running`, `start_time` stamped. -/
def sessB : SessionInfo := driverStart sessA 1

def regB : Registry := updateReg regA "s1" sessB

/-- A continuation event: no error flag, no completion indicator. -/
def msgCont : Message :=
  ⟨"AssistantMessage", .vobj [("content", .vstr "hi")], false, none, none,
   none, some "cidY", none, none, none, none⟩

/-- A terminal event carrying a `final_result` subtype, a session id, a
turn count and a duration. -/
def msgTerm : Message :=
  ⟨"ResultMessage", .vobj [], false, none, some "final_result", none,
   some "cidX", some 2, some 100, none, none⟩

/-- After the terminal event: `completed`, `result` populated. -/
def sessC : SessionInfo := (processOne sessB 2 msgTerm).1

def regC : Registry := updateReg regB "s1" sessC

/-- After the driver's `finally`: `end_time` stamped. -/
def sessD : SessionInfo := stampEnd sessC 3

def regD : Registry := updateReg regC "s1" sessD

/-- After resuming the completed session: `pending` again, but `result`
still populated (the source does not clear it). -/
def sessE : SessionInfo := resumeUpdated sessD "more" optsX

def regE : Registry := (resumeSession regD "s1" "more" optsX).2

/-- Branch from `sessB`: the stream exhausts without a terminal signal, the
`finally` clause stamps `end_time`, and the status is left `running`. -/
def sessSwp : SessionInfo := stampEnd sessB 2

def regSwp : Registry := updateReg regB "s1" sessSwp

/-! ## Helper lemmas about the registry -/

theorem lookupReg_mem {reg : Registry} {id : String} {s : SessionInfo}
    (h : lookupReg reg id = some s) : (id, s) ∈ reg := by
  unfold lookupReg at h
  cases hf : List.find? (fun p => p.1 == id) reg with
  | none => rw [hf] at h; exact absurd h (by simp)
  | some p =>
    rw [hf] at h
    have hmem : p ∈ reg := List.mem_of_find?_eq_some hf
    have hpq := List.find?_some hf
    have ha : p.1 = id := by simpa using hpq
    have hb : p.2 = s := Option.some.inj h
    have hps : p = (id, s) := Prod.ext_iff.mpr ⟨ha, hb⟩
    rw [← hps]
    exact hmem

theorem mem_updateReg {reg : Registry} {id : String} {s : SessionInfo}
    {p : String × SessionInfo} (hp : p ∈ updateReg reg id s) :
    p ∈ reg ∨ p = (id, s) := by
  unfold updateReg at hp
  rcases List.mem_map.mp hp with ⟨q, hq, hmap⟩
  by_cases hqi : (q.1 == id) = true
  · right; rw [← hmap]; simp [hqi]
  · left; rw [← hmap]; simp only [hqi, if_false]; exact hq

theorem mem_insertReg {reg : Registry} {id : String} {s : SessionInfo}
    {p : String × SessionInfo} (hp : p ∈ insertReg reg id s) :
    p ∈ reg ∨ p = (id, s) := by
  unfold insertReg at hp
  split at hp
  · exact mem_updateReg hp
  · rcases List.mem_append.mp hp with h | h
    · left; exact h
    · right; simpa using h

/-! ## Projection lemmas for the record-update functions -/

section

variable (s : SessionInfo) (t : Int) (m : Message)

@[simp] theorem addMessage_status : (addMessage s t m).status = s.status := rfl

@[simp] theorem addMessage_error : (addMessage s t m).error = s.error := rfl

@[simp] theorem addMessage_result : (addMessage s t m).result = s.result := rfl

@[simp] theorem addMessage_everCompleted :
    (addMessage s t m).everCompleted = s.everCompleted := rfl

@[simp] theorem addMessage_session_id :
    (addMessage s t m).session_id = s.session_id := rfl

@[simp] theorem addMessage_start_time :
    (addMessage s t m).start_time = s.start_time := rfl

@[simp] theorem addMessage_end_time :
    (addMessage s t m).end_time = s.end_time := rfl

@[simp] theorem addMessage_messages :
    (addMessage s t m).messages =
      s.messages ++ [⟨m.className, serializeMessage m.payload, t⟩] := rfl

@[simp] theorem earlyCapture_status : (earlyCapture s m).status = s.status := by
  unfold earlyCapture; split <;> rfl

@[simp] theorem earlyCapture_error : (earlyCapture s m).error = s.error := by
  unfold earlyCapture; split <;> rfl

@[simp] theorem earlyCapture_result : (earlyCapture s m).result = s.result := by
  unfold earlyCapture; split <;> rfl

@[simp] theorem earlyCapture_everCompleted :
    (earlyCapture s m).everCompleted = s.everCompleted := by
  unfold earlyCapture; split <;> rfl

@[simp] theorem earlyCapture_session_id :
    (earlyCapture s m).session_id = s.session_id := by
  unfold earlyCapture; split <;> rfl

@[simp] theorem earlyCapture_start_time :
    (earlyCapture s m).start_time = s.start_time := by
  unfold earlyCapture; split <;> rfl

@[simp] theorem earlyCapture_end_time :
    (earlyCapture s m).end_time = s.end_time := by
  unfold earlyCapture; split <;> rfl

@[simp] theorem earlyCapture_messages :
    (earlyCapture s m).messages = s.messages := by
  unfold earlyCapture; split <;> rfl

end

/-! ## Branch characterizations of one event-loop iteration -/

theorem processOne_err (s : SessionInfo) (t : Int) (m : Message)
    (he : m.is_error = true) :
    processOne s t m =
      ({ earlyCapture (addMessage s t m) m with
          status := .error,
          error := some (match m.err_result with
            | some r => r
            | none => "Unknown error occurred") }, true) := by
  simp [processOne, he]

theorem processOne_final_eq (s : SessionInfo) (t : Int) (m : Message)
    (he : m.is_error = false) (hf : isFinal m = true) :
    processOne s t m =
      (if truthyOpt m.session_id then
        { earlyCapture (addMessage s t m) m with
            status := .completed,
            result := some (mkResultRecord m),
            everCompleted := true,
            claude_session_id := m.session_id }
       else
        { earlyCapture (addMessage s t m) m with
            status := .completed,
            result := some (mkResultRecord m),
            everCompleted := true }, true) := by
  simp [processOne, he, hf]

theorem processOne_cont_eq (s : SessionInfo) (t : Int) (m : Message)
    (he : m.is_error = false) (hf : isFinal m = false) :
    processOne s t m = (earlyCapture (addMessage s t m) m, false) := by
  simp [processOne, he, hf]

theorem processOne_err_fields (s : SessionInfo) (t : Int) (m : Message)
    (he : m.is_error = true) :
    (processOne s t m).1.status = .error ∧
    (processOne s t m).1.result = s.result ∧
    (processOne s t m).1.everCompleted = s.everCompleted := by
  rw [processOne_err s t m he]
  refine ⟨rfl, ?_, ?_⟩ <;> simp

theorem processOne_final_fields (s : SessionInfo) (t : Int) (m : Message)
    (he : m.is_error = false) (hf : isFinal m = true) :
    (processOne s t m).1.status = .completed ∧
    (processOne s t m).1.result = some (mkResultRecord m) ∧
    (processOne s t m).1.everCompleted = true ∧
    (processOne s t m).1.error = s.error ∧
    (processOne s t m).1.messages =
      s.messages ++ [⟨m.className, serializeMessage m.payload, t⟩] := by
  rw [processOne_final_eq s t m he hf]
  split <;> refine ⟨rfl, rfl, rfl, ?_, ?_⟩ <;> simp

theorem processOne_session_id (s : SessionInfo) (t : Int) (m : Message) :
    (processOne s t m).1.session_id = s.session_id := by
  by_cases he : m.is_error = true
  · rw [processOne_err s t m he]; simp
  · by_cases hf : isFinal m = true
    · rw [processOne_final_eq s t m (by simpa using he) hf]
      split <;> simp
    · rw [processOne_cont_eq s t m (by simpa using he) (by simpa using hf)]
      simp

/-! ## Per-record invariant preservation -/

theorem SOk_error_none {s : SessionInfo} (hs : SOk s)
    (h1 : s.status ≠ .error) (h2 : s.status ≠ .cancelled) : s.error = none := by
  cases hseq : s.error with
  | none => rfl
  | some e =>
    exfalso
    rcases hs.1 (by simp [hseq]) with h | h
    · exact h1 h
    · exact h2 h

theorem processOne_SOk {s : SessionInfo} {t : Int} {m : Message}
    (hrun : s.status = .running) (hs : SOk s) : SOk (processOne s t m).1 := by
  have herr : s.error = none :=
    SOk_error_none hs (by rw [hrun]; intro h; cases h)
      (by rw [hrun]; intro h; cases h)
  by_cases he : m.is_error = true
  · obtain ⟨h1, h2, h3⟩ := processOne_err_fields s t m he
    constructor
    · intro _; left; exact h1
    · intro hr; rw [h3]; exact hs.2 (by rw [← h2]; exact hr)
  · by_cases hf : isFinal m = true
    · obtain ⟨h1, h2, h3, h4, h5⟩ :=
        processOne_final_fields s t m (by simpa using he) hf
      constructor
      · intro hne; exfalso; apply hne; rw [h4, herr]
      · intro _; exact h3
    · rw [processOne_cont_eq s t m (by simpa using he) (by simpa using hf)]
      have hres : (earlyCapture (addMessage s t m) m, false).1 =
          earlyCapture (addMessage s t m) m := rfl
      rw [hres]
      constructor
      · intro hne
        have h5 : s.error ≠ none := by simpa using hne
        rcases hs.1 h5 with h | h
        · left; simpa using h
        · right; simpa using h
      · intro hr
        rw [earlyCapture_everCompleted, addMessage_everCompleted]
        exact hs.2 (by simpa using hr)

theorem dstep_SOk {s s' : SessionInfo} (h : DStep s s') (hs : SOk s) : SOk s' := by
  cases h with
  | start t hp =>
    have herr : s.error = none :=
      SOk_error_none hs (by rw [hp]; intro h; cases h) (by rw [hp]; intro h; cases h)
    constructor
    · intro hne
      exact absurd (show (driverStart s t).error = none by simp [driverStart, herr]) hne
    · intro hr; exact hs.2 (by simpa [driverStart] using hr)
  | event t m hrun => exact processOne_SOk hrun hs
  | cancelledErr hc =>
    constructor
    · intro _; right; rfl
    · intro hr; exact hs.2 (by simpa [driverCancelled] using hr)
  | exc e hse =>
    constructor
    · intro _; left; rfl
    · intro hr; exact hs.2 (by simpa [driverExc] using hr)
  | finish t hns =>
    constructor
    · intro hne; exact hs.1 (by simpa [stampEnd] using hne)
    · intro hr; exact hs.2 (by simpa [stampEnd] using hr)

theorem dstep_session_id {s s' : SessionInfo} (h : DStep s s') :
    s'.session_id = s.session_id := by
  cases h with
  | start t hp => rfl
  | event t m hrun => exact processOne_session_id s t m
  | cancelledErr hc => rfl
  | exc e hse => rfl
  | finish t hns => rfl

/-! ## Registry shapes of the store operations -/

theorem resumeSession_reg_cases (reg : Registry) (id prompt : String)
    (opts : ClaudeAgentOptions) :
    (resumeSession reg id prompt opts).2 = reg ∨
    ∃ ex, lookupReg reg id = some ex ∧
      (resumeSession reg id prompt opts).2 =
        updateReg reg id (resumeUpdated ex prompt opts) := by
  cases hl : lookupReg reg id with
  | none => left; simp [resumeSession, hl]
  | some ex =>
    by_cases h1 : truthyOpt ex.claude_session_id
    · by_cases h2 : ex.status = .running
      · left; simp [resumeSession, hl, h1, h2]
      · right; exact ⟨ex, rfl, by simp [resumeSession, hl, h1, h2]⟩
    · left; simp [resumeSession, hl, h1]

theorem cancelSession_reg_cases (reg : Registry) (id : String) (t : Int)
    (b : Bool) :
    (cancelSession reg id t b).2.1 = reg ∨
    ∃ s, lookupReg reg id = some s ∧
      (cancelSession reg id t b).2.1 = updateReg reg id (cancelUpdated s t) := by
  cases hl : lookupReg reg id with
  | none => left; simp [cancelSession, hl]
  | some s =>
    by_cases h2 : s.status = .running
    · right; exact ⟨s, rfl, by simp [cancelSession, hl, h2]⟩
    · left; simp [cancelSession, hl, h2]

theorem deleteSession_reg_sub {reg : Registry} {id : String}
    {p : String × SessionInfo} (hp : p ∈ (deleteSession reg id).2) : p ∈ reg := by
  unfold deleteSession at hp
  cases hl : lookupReg reg id with
  | none => rw [hl] at hp; exact hp
  | some s =>
    rw [hl] at hp
    dsimp only at hp
    by_cases h2 : s.status = .running
    · rw [if_pos h2] at hp; exact hp
    · rw [if_neg h2] at hp; exact (List.mem_filter.mp hp).1

/-! ## Invariants of all reachable registry states -/

theorem freshSession_SOk (id : String) (opts : ClaudeAgentOptions)
    (prompt : String) (t : Int) (tk : Option TaskHandle) :
    SOk { freshSession id opts prompt t with task := tk } := by
  constructor
  · intro hne; exact absurd rfl hne
  · intro hr; exact absurd rfl hr

theorem resumeUpdated_SOk {ex : SessionInfo} (hs : SOk ex)
    (prompt : String) (opts : ClaudeAgentOptions) :
    SOk (resumeUpdated ex prompt opts) := by
  constructor
  · intro hne; exact absurd rfl hne
  · intro hr; exact hs.2 (by simpa [resumeUpdated] using hr)

theorem cancelUpdated_SOk {s : SessionInfo} (hs : SOk s) (t : Int) :
    SOk (cancelUpdated s t) := by
  constructor
  · intro _; right; rfl
  · intro hr; exact hs.2 (by simpa [cancelUpdated] using hr)

theorem reach_RegOk {reg : Registry} (h : Reach reg) : RegOk reg := by
  induction h with
  | init => intro p hp; cases hp
  | create reg id prompt opts t hr ih =>
    intro p hp
    have hp2 : p ∈ insertReg reg id
        { freshSession id opts prompt t with task := some ⟨false, false⟩ } := hp
    rcases mem_insertReg hp2 with h | h
    · exact ih p h
    · rw [h]; exact freshSession_SOk id opts prompt t (some ⟨false, false⟩)
  | resume reg id prompt opts hr ih =>
    intro p hp
    rcases resumeSession_reg_cases reg id prompt opts with he | ⟨ex, hex, he⟩
    · rw [he] at hp; exact ih p hp
    · rw [he] at hp
      rcases mem_updateReg hp with h | h
      · exact ih p h
      · rw [h]
        exact resumeUpdated_SOk (ih (id, ex) (lookupReg_mem hex)) prompt opts
  | cancel reg id t b hr ih =>
    intro p hp
    rcases cancelSession_reg_cases reg id t b with he | ⟨s, hs, he⟩
    · rw [he] at hp; exact ih p hp
    · rw [he] at hp
      rcases mem_updateReg hp with h | h
      · exact ih p h
      · rw [h]; exact cancelUpdated_SOk (ih (id, s) (lookupReg_mem hs)) t
  | delete reg id hr ih =>
    intro p hp; exact ih p (deleteSession_reg_sub hp)
  | cleanup reg h now hr ih =>
    intro p hp; exact ih p (List.mem_filter.mp hp).1
  | driver reg id s s' hr hl hstep ih =>
    intro p hp
    rcases mem_updateReg hp with h | h
    · exact ih p h
    · rw [h]; exact dstep_SOk hstep (ih (id, s) (lookupReg_mem hl))

theorem reach_WellKeyed {reg : Registry} (h : Reach reg) : WellKeyed reg := by
  induction h with
  | init => intro p hp; cases hp
  | create reg id prompt opts t hr ih =>
    intro p hp
    have hp2 : p ∈ insertReg reg id
        { freshSession id opts prompt t with task := some ⟨false, false⟩ } := hp
    rcases mem_insertReg hp2 with h | h
    · exact ih p h
    · rw [h]; rfl
  | resume reg id prompt opts hr ih =>
    intro p hp
    rcases resumeSession_reg_cases reg id prompt opts with he | ⟨ex, hex, he⟩
    · rw [he] at hp; exact ih p hp
    · rw [he] at hp
      rcases mem_updateReg hp with h | h
      · exact ih p h
      · rw [h]
        show (resumeUpdated ex prompt opts).session_id = id
        have : ex.session_id = id := ih (id, ex) (lookupReg_mem hex)
        simpa [resumeUpdated] using this
  | cancel reg id t b hr ih =>
    intro p hp
    rcases cancelSession_reg_cases reg id t b with he | ⟨s, hs, he⟩
    · rw [he] at hp; exact ih p hp
    · rw [he] at hp
      rcases mem_updateReg hp with h | h
      · exact ih p h
      · rw [h]
        show (cancelUpdated s t).session_id = id
        have : s.session_id = id := ih (id, s) (lookupReg_mem hs)
        simpa [cancelUpdated] using this
  | delete reg id hr ih =>
    intro p hp; exact ih p (deleteSession_reg_sub hp)
  | cleanup reg h now hr ih =>
    intro p hp; exact ih p (List.mem_filter.mp hp).1
  | driver reg id s s' hr hl hstep ih =>
    intro p hp
    rcases mem_updateReg hp with h | h
    · exact ih p h
    · rw [h]
      show s'.session_id = id
      rw [dstep_session_id hstep]
      exact ih (id, s) (lookupReg_mem hl)

/-! ## Reachability of the concrete scenario states -/

theorem reachA : Reach regA := Reach.create [] "s1" "go" optsX 0 Reach.init

theorem reachB : Reach regB :=
  Reach.driver regA "s1" sessA sessB reachA rfl (DStep.start sessA 1 rfl)

theorem reachC : Reach regC :=
  Reach.driver regB "s1" sessB sessC reachB rfl (DStep.event sessB 2 msgTerm rfl)

theorem reachD : Reach regD :=
  Reach.driver regC "s1" sessC sessD reachC rfl
    (DStep.finish sessC 3 (by intro h; cases h))

theorem reachE : Reach regE := Reach.resume regD "s1" "more" optsX reachD

theorem reachSwp : Reach regSwp :=
  Reach.driver regB "s1" sessB sessSwp reachB rfl
    (DStep.finish sessB 2 (by intro h; cases h))

/-! ## Event-stream lemmas for the driver -/

theorem runStream_cons (s : SessionInfo) (t : Int) (m : Message)
    (rest : List Message) :
    runStream s t (m :: rest) =
      (if (processOne s t m).2 then (processOne s t m).1
       else runStream (processOne s t m).1 t rest) := rfl

theorem processOne_final_brk (s : SessionInfo) (t : Int) (m : Message)
    (he : m.is_error = false) (hf : isFinal m = true) :
    (processOne s t m).2 = true := by
  rw [processOne_final_eq s t m he hf]

/-- Over a run of continuation events the event loop only appends the
serialized events (and possibly captures the engine session id): status,
`error`, `result` and `end_time` are untouched. -/
theorem runStream_cont (s : SessionInfo) (t : Int) (msgs : List Message)
    (h : ∀ m ∈ msgs, m.is_error = false ∧ isFinal m = false) :
    (runStream s t msgs).status = s.status ∧
    (runStream s t msgs).error = s.error ∧
    (runStream s t msgs).result = s.result ∧
    (runStream s t msgs).end_time = s.end_time ∧
    (runStream s t msgs).messages =
      s.messages ++ msgs.map (fun m => ⟨m.className, serializeMessage m.payload, t⟩) := by
  induction msgs generalizing s with
  | nil => simp [runStream]
  | cons m rest ih =>
    have hm := h m (by simp)
    have hrest : ∀ m2 ∈ rest, m2.is_error = false ∧ isFinal m2 = false :=
      fun m2 hm2 => h m2 (by simp [hm2])
    rw [runStream_cons, processOne_cont_eq s t m hm.1 hm.2]
    dsimp only
    rw [if_neg Bool.false_ne_true]
    obtain ⟨i1, i2, i3, i4, i5⟩ := ih (earlyCapture (addMessage s t m) m) hrest
    refine ⟨?_, ?_, ?_, ?_, ?_⟩
    · rw [i1]; simp
    · rw [i2]; simp
    · rw [i3]; simp
    · rw [i4]; simp
    · rw [i5]; simp

/-- Splitting the stream at a prefix of continuation events. -/
theorem runStream_cont_append (s : SessionInfo) (t : Int)
    (pre rest : List Message)
    (h : ∀ m ∈ pre, m.is_error = false ∧ isFinal m = false) :
    runStream s t (pre ++ rest) = runStream (runStream s t pre) t rest := by
  induction pre generalizing s with
  | nil => simp [runStream]
  | cons m pre2 ih =>
    have hm := h m (by simp)
    have hpre2 : ∀ m2 ∈ pre2, m2.is_error = false ∧ isFinal m2 = false :=
      fun m2 hm2 => h m2 (by simp [hm2])
    rw [List.cons_append, runStream_cons, processOne_cont_eq s t m hm.1 hm.2]
    rw [runStream_cons, processOne_cont_eq s t m hm.1 hm.2]
    dsimp only
    rw [if_neg Bool.false_ne_true, if_neg Bool.false_ne_true]
    exact ih (earlyCapture (addMessage s t m) m) hpre2

/-! ## More helper lemmas -/

theorem serializeObjKVs_append (a b : List (String × PyVal)) :
    serializeObjKVs (a ++ b) = serializeObjKVs a ++ serializeObjKVs b := by
  induction a with
  | nil => rfl
  | cons kv r ih =>
    cases kv with
    | mk k v =>
      by_cases hk : startsUnderscore k = true
      · simp [serializeObjKVs, hk, ih]
      · simp [serializeObjKVs, hk, ih]

theorem lookupReg_erase (reg : Registry) (id : String) :
    lookupReg (List.filter (fun p => !(p.1 == id)) reg) id = none := by
  induction reg with
  | nil => rfl
  | cons q reg ih =>
    by_cases hq : (q.1 == id) = true
    · rw [List.filter_cons]
      simp only [hq, Bool.not_true, if_neg Bool.false_ne_true]
      exact ih
    · rw [List.filter_cons]
      have hqf : (q.1 == id) = false := by
        cases hqc : (q.1 == id) with
        | false => rfl
        | true => exact absurd hqc hq
      have hq2 : (!(q.1 == id)) = true := by rw [hqf]; rfl
      rw [if_pos hq2]
      unfold lookupReg at ih ⊢
      rw [List.find?_cons, hqf]
      exact ih

section

variable (s : SessionInfo) (t : Int)

theorem driverStart_status : (driverStart s t).status = .running := rfl

theorem driverStart_messages : (driverStart s t).messages = s.messages := rfl

theorem driverStart_end_time : (driverStart s t).end_time = s.end_time := rfl

theorem stampEnd_status : (stampEnd s t).status = s.status := rfl

theorem stampEnd_result : (stampEnd s t).result = s.result := rfl

theorem stampEnd_messages : (stampEnd s t).messages = s.messages := rfl

theorem stampEnd_end_time : (stampEnd s t).end_time = some t := rfl

end

/-! ## Claim theorems -/

/-- Claim C5: for every driver run whose event stream is exhausted without
any error signal, terminal signal, exception, or cancellation, the status is
left as last set by the run — `running`, set by the driver's head — and in
particular is not transitioned to `completed` or `error`, while `end_time`
is nonetheless stamped when the run finishes. -/
theorem stream_exhaustion_spec (s : SessionInfo) (tS tM tE : Int)
    (msgs : List Message)
    (h : ∀ m ∈ msgs, m.is_error = false ∧ isFinal m = false) :
    (runAgentNoExc s tS tM tE msgs).status = .running ∧
    (runAgentNoExc s tS tM tE msgs).status ≠ .completed ∧
    (runAgentNoExc s tS tM tE msgs).status ≠ .error ∧
    (runAgentNoExc s tS tM tE msgs).end_time = some tE := by
  obtain ⟨h1, -, -, -, -⟩ := runStream_cont (driverStart s tS) tM msgs h
  have hst : (runAgentNoExc s tS tM tE msgs).status = .running := by
    unfold runAgentNoExc
    rw [stampEnd_status, h1, driverStart_status]
  refine ⟨hst, ?_, ?_, ?_⟩
  · rw [hst]; intro hc; cases hc
  · rw [hst]; intro hc; cases hc
  · unfold runAgentNoExc; rw [stampEnd_end_time]

/-- Claim C6: for every stream event that is not an error signal, the
driver classifies it as terminal exactly when it carries an explicit
`final_result` marker, an explicit `result`/`final`/`completion` type tag,
or both a turn count and a duration; on the first terminal event it sets
the status to `completed`, populates `result` with whichever of
{engine session id, turn count, duration, cost, usage} the event exposes
(each field independently optional), and stops consuming further events
(the run is identical whatever follows the terminal event). -/
theorem terminal_event_spec (s : SessionInfo) (tS tM tE : Int)
    (pre post : List Message) (tm : Message)
    (hpre : ∀ m ∈ pre, m.is_error = false ∧ isFinal m = false)
    (he : tm.is_error = false) (hf : isFinal tm = true) :
    runAgentNoExc s tS tM tE (pre ++ tm :: post) =
      runAgentNoExc s tS tM tE (pre ++ [tm]) ∧
    (runAgentNoExc s tS tM tE (pre ++ tm :: post)).status = .completed ∧
    (runAgentNoExc s tS tM tE (pre ++ tm :: post)).result =
      some (mkResultRecord tm) ∧
    mkResultRecord tm = ⟨tm.session_id, tm.num_turns, tm.duration_ms,
      tm.total_cost_usd, tm.usage.map serializeValue⟩ ∧
    (runAgentNoExc s tS tM tE (pre ++ tm :: post)).messages =
      s.messages ++ (pre ++ [tm]).map
        (fun m => ⟨m.className, serializeMessage m.payload, tM⟩) ∧
    (isFinal tm = true ↔ tm.subtype = some "final_result" ∨
      tm.mtype = some "result" ∨ tm.mtype = some "final" ∨
      tm.mtype = some "completion" ∨
      (tm.num_turns.isSome = true ∧ tm.duration_ms.isSome = true)) := by
  have hbrk := processOne_final_brk (runStream (driverStart s tS) tM pre) tM tm he hf
  have hrun : ∀ post2 : List Message,
      runStream (driverStart s tS) tM (pre ++ tm :: post2) =
        (processOne (runStream (driverStart s tS) tM pre) tM tm).1 := by
    intro post2
    rw [runStream_cont_append (driverStart s tS) tM pre (tm :: post2) hpre]
    rw [runStream_cons, if_pos hbrk]
  have heq : runAgentNoExc s tS tM tE (pre ++ tm :: post) =
      runAgentNoExc s tS tM tE (pre ++ [tm]) := by
    unfold runAgentNoExc
    rw [hrun post, hrun []]
  obtain ⟨f1, f2, f3, f4, f5⟩ :=
    processOne_final_fields (runStream (driverStart s tS) tM pre) tM tm he hf
  obtain ⟨c1, c2, c3, c4, c5⟩ := runStream_cont (driverStart s tS) tM pre hpre
  have hform : runAgentNoExc s tS tM tE (pre ++ tm :: post) =
      stampEnd (processOne (runStream (driverStart s tS) tM pre) tM tm).1 tE := by
    unfold runAgentNoExc; rw [hrun post]
  refine ⟨heq, ?_, ?_, rfl, ?_, ?_⟩
  · rw [hform, stampEnd_status, f1]
  · rw [hform, stampEnd_result, f2]
  · rw [hform, stampEnd_messages, f5, c5, driverStart_messages]
    simp
  · simp only [isFinal, Bool.or_eq_true, Bool.and_eq_true, beq_iff_eq]
    constructor
    · intro hx
      rcases hx with ((((a | b) | c) | d) | e)
      · exact Or.inl a
      · exact Or.inr (Or.inl b)
      · exact Or.inr (Or.inr (Or.inl c))
      · exact Or.inr (Or.inr (Or.inr (Or.inl d)))
      · exact Or.inr (Or.inr (Or.inr (Or.inr e)))
    · intro hx
      rcases hx with a | b | c | d | e
      · exact Or.inl (Or.inl (Or.inl (Or.inl a)))
      · exact Or.inl (Or.inl (Or.inl (Or.inr b)))
      · exact Or.inl (Or.inl (Or.inr c))
      · exact Or.inl (Or.inr d)
      · exact Or.inr e

/-- Claim C7: serialization of an event object never raises: a field whose
conversion fails is replaced, under the field's own name, by a placeholder
string describing the failure, while every sibling field (before and after
it) and the enclosing record are still converted normally. -/
theorem serializer_isolates_field_failure (pre post : List (String × PyVal))
    (k msg : String) (hk : startsUnderscore k = false) :
    serializeMessage (.vobj (pre ++ (k, .raising msg) :: post)) =
      .jdict (serializeObjKVs pre ++
        (k, .jstr ("<value_serialization_error: " ++ msg ++ ">")) ::
        serializeObjKVs post) := by
  show JVal.jdict (serializeObjKVs (pre ++ (k, .raising msg) :: post)) = _
  rw [serializeObjKVs_append]
  have hmid : serializeObjKVs ((k, PyVal.raising msg) :: post) =
      (k, JVal.jstr ("<value_serialization_error: " ++ msg ++ ">")) ::
        serializeObjKVs post := by
    show (if startsUnderscore k then serializeObjKVs post
          else (k, serializeValue (.raising msg)) :: serializeObjKVs post) = _
    rw [hk, if_neg Bool.false_ne_true]
    rfl
  rw [hmid]

/-- Claim C8: `cancel(id)` returns false and changes no state when no
record with `id` exists or the record is not `running`; on a running record
it requests interruption of the engine handle when one is attached
(failures from the interrupt are swallowed: the outcome is independent of
whether it raises), requests cancellation of the background task when one
is attached, sets the status to `cancelled`, stamps `end_time`, and returns
true. -/
theorem cancel_session_spec (reg : Registry) (id : String) (tNow : Int)
    (iRaises : Bool) :
    (lookupReg reg id = none →
      cancelSession reg id tNow iRaises = (false, reg, ⟨false, false⟩)) ∧
    (∀ s, lookupReg reg id = some s → s.status ≠ .running →
      cancelSession reg id tNow iRaises = (false, reg, ⟨false, false⟩)) ∧
    (∀ s, lookupReg reg id = some s → s.status = .running →
      (cancelSession reg id tNow iRaises).1 = true ∧
      (cancelSession reg id tNow iRaises).2.1 =
        updateReg reg id (cancelUpdated s tNow) ∧
      (cancelUpdated s tNow).status = .cancelled ∧
      (cancelUpdated s tNow).end_time = some tNow ∧
      (cancelSession reg id tNow iRaises).2.2.interruptRequested =
        s.clientPresent ∧
      (cancelSession reg id tNow iRaises).2.2.taskCancelRequested =
        s.task.isSome) ∧
    cancelSession reg id tNow iRaises = cancelSession reg id tNow (!iRaises) := by
  refine ⟨?_, ?_, ?_, rfl⟩
  · intro hl; simp [cancelSession, hl]
  · intro s hl hns; simp [cancelSession, hl, hns]
  · intro s hl hrun
    refine ⟨?_, ?_, rfl, rfl, ?_, ?_⟩ <;> simp [cancelSession, hl, hrun]

/-- Claim C1: `delete(id)` fails with NotFound when no record with `id`
exists, fails with Conflict when the record's status is `running`, and
otherwise removes the record from the registry and returns the record's
status prior to removal.  (`deleteSession` itself is modelled from the
spec; see its doc comment.) -/
theorem delete_session_spec (reg : Registry) (id : String) :
    (lookupReg reg id = none →
      deleteSession reg id =
        ((false, some ("Session " ++ id ++ " not found"), none), reg)) ∧
    (∀ s, lookupReg reg id = some s → s.status = .running →
      deleteSession reg id =
        ((false, some ("Session " ++ id ++ " is running"),
          some SessionStatus.running), reg)) ∧
    (∀ s, lookupReg reg id = some s → s.status ≠ .running →
      (deleteSession reg id).1 = (true, none, some s.status) ∧
      (deleteSession reg id).2 = List.filter (fun p => !(p.1 == id)) reg ∧
      lookupReg (deleteSession reg id).2 id = none) := by
  refine ⟨?_, ?_, ?_⟩
  · intro hl; simp [deleteSession, hl]
  · intro s hl hrun; simp [deleteSession, hl, hrun]
  · intro s hl hns
    have h2 : (deleteSession reg id).2 =
        List.filter (fun p => !(p.1 == id)) reg := by
      simp [deleteSession, hl, hns]
    refine ⟨?_, h2, ?_⟩
    · simp [deleteSession, hl, hns]
    · rw [h2]; exact lookupReg_erase reg id

/-- Claim C2 (amended): `resume(id, prompt, configuration)` fails with
NotFound when no record with `id` exists; when the record exists but its
`engineSessionId` is unset (not truthy) it fails with NotResumable — this
check precedes the running check in the source, so it fires even when the
record is `running`; it fails with Conflict when `engineSessionId` is set
and the status is `running`; and on every such rejection no record state is
mutated (the registry is returned unchanged). -/
theorem resume_rejection_spec (reg : Registry) (id prompt : String)
    (opts : ClaudeAgentOptions) :
    (lookupReg reg id = none →
      resumeSession reg id prompt opts = (.error .notFound, reg)) ∧
    (∀ ex, lookupReg reg id = some ex →
      truthyOpt ex.claude_session_id = false →
      resumeSession reg id prompt opts = (.error .notResumable, reg)) ∧
    (∀ ex, lookupReg reg id = some ex →
      truthyOpt ex.claude_session_id = true → ex.status = .running →
      resumeSession reg id prompt opts = (.error .conflict, reg)) := by
  refine ⟨?_, ?_, ?_⟩
  · intro hl; simp [resumeSession, hl]
  · intro ex hl hcid; simp [resumeSession, hl, hcid]
  · intro ex hl hcid hrun; simp [resumeSession, hl, hcid, hrun]

/-- Claim C2 counterexample: in the reachable state where `"s1"` is
`running` but no engine session id has been captured yet, resume is
rejected with NotResumable — not with Conflict, as the claim's
"including when its engineSessionId is unset" requires. -/
theorem resume_running_without_cid_not_conflict :
    Reach regB ∧
    (lookupReg regB "s1").map SessionInfo.status =
      some SessionStatus.running ∧
    (lookupReg regB "s1").map SessionInfo.claude_session_id = some none ∧
    (resumeSession regB "s1" "more" optsX).1 =
      .error ResumeError.notResumable ∧
    ResumeError.notResumable ≠ ResumeError.conflict :=
  ⟨reachB, rfl, rfl, rfl, by decide⟩

/-- Claim C9: every successful resume returns a record whose caller-facing
id equals the input id (never a fresh one), requests cancellation of a
stale not-yet-done task handle, appends the resume delimiter plus the new
prompt to the stored prompt, resets the status to `pending`, clears
`error`, `start_time` and `end_time`, installs the caller's configuration
with its resume token set to the stored `engineSessionId`, and attaches the
fresh driver task to the record stored under the same key. -/
theorem resume_success_spec (reg : Registry) (id prompt : String)
    (opts : ClaudeAgentOptions) (old : SessionInfo) (out : ResumeOk)
    (hw : WellKeyed reg)
    (hold : lookupReg reg id = some old)
    (hok : (resumeSession reg id prompt opts).1 = .ok out) :
    out.session.session_id = id ∧
    out.session.status = .pending ∧
    out.session.error = none ∧
    out.session.start_time = none ∧
    out.session.end_time = none ∧
    out.session.prompt = old.prompt ++ resumeDelimiter ++ prompt ∧
    out.session.options = { opts with resume := old.claude_session_id } ∧
    out.session.task = some ⟨false, false⟩ ∧
    (∀ tk, old.task = some tk → tk.done = false →
      out.staleTask = some { tk with cancelRequested := true }) ∧
    (resumeSession reg id prompt opts).2 = updateReg reg id out.session := by
  have hsid : old.session_id = id := hw (id, old) (lookupReg_mem hold)
  by_cases hcid : truthyOpt old.claude_session_id = true
  · by_cases hrun : old.status = .running
    · exfalso
      have hc : (resumeSession reg id prompt opts).1 = .error .conflict := by
        simp [resumeSession, hold, hcid, hrun]
      rw [hc] at hok; cases hok
    · have hval : (resumeSession reg id prompt opts).1 =
          .ok ⟨resumeUpdated old prompt opts, old.task.map cancelStale⟩ := by
        simp [resumeSession, hold, hcid, hrun]
      rw [hval] at hok
      have hout : out = ⟨resumeUpdated old prompt opts, old.task.map cancelStale⟩ :=
        (Except.ok.inj hok).symm
      subst hout
      refine ⟨?_, rfl, rfl, rfl, rfl, rfl, rfl, rfl, ?_, ?_⟩
      · show (resumeUpdated old prompt opts).session_id = id
        simpa [resumeUpdated] using hsid
      · intro tk htk hdone
        show old.task.map cancelStale = _
        rw [htk]
        simp [cancelStale, hdone]
      · simp [resumeSession, hold, hcid, hrun]
  · exfalso
    have hcid2 : truthyOpt old.claude_session_id = false := by
      cases hc : truthyOpt old.claude_session_id with
      | false => rfl
      | true => exact absurd hc hcid
    have hn : (resumeSession reg id prompt opts).1 = .error .notResumable := by
      simp [resumeSession, hold, hcid2]
    rw [hn] at hok; cases hok

/-- Claim C3 counterexample: resuming the completed session leaves `result`
populated while the status is reset to `pending` (the source clears
`error`/`start_time`/`end_time` on resume but not `result`), refuting
"result is non-null only if status is completed" on a reachable state. -/
theorem result_nonnull_outside_completed :
    Reach regE ∧
    lookupReg regE "s1" = some sessE ∧
    sessE.result.isSome = true ∧
    sessE.status = SessionStatus.pending ∧
    SessionStatus.pending ≠ SessionStatus.completed :=
  ⟨reachE, rfl, rfl, rfl, by decide⟩

/-- Claim C3 (amended): in every reachable registry state, a record's
`error` is non-null only if its status is `error` or `cancelled`; its
`result` is non-null only if some run has stored a completed result for it
(ghost flag `everCompleted`) — resume does not clear `result`, so after a
resume a non-null `result` can coexist with any status (see the
counterexample). -/
theorem reach_error_result_invariant (reg : Registry) (h : Reach reg) :
    ∀ p ∈ reg,
      (p.2.error ≠ none → p.2.status = .error ∨ p.2.status = .cancelled) ∧
      (p.2.result ≠ none → p.2.everCompleted = true) :=
  reach_RegOk h

/-- Claim C4 counterexample: in the reachable state where the stream of
`"s1"` exhausted without a terminal signal, the record has status `running`
with `end_time` stamped; cleanup sweeps it anyway, refuting "never removes
a record that is still running". -/
theorem cleanup_sweeps_running_record :
    Reach regSwp ∧
    lookupReg regSwp "s1" = some sessSwp ∧
    sessSwp.status = SessionStatus.running ∧
    (cleanupOldSessions regSwp 0 7200).2 = [] ∧
    (cleanupOldSessions regSwp 0 7200).1 = 1 :=
  ⟨reachSwp, rfl, rfl, rfl, rfl⟩

/-- Claim C4 (amended): cleanup removes exactly the records whose
`end_time` is set and strictly older than `now - maxAgeHours`, irrespective
of status; a record whose `end_time` is unset — in particular one that
never started — is never removed, regardless of `maxAgeHours`; and the
count of removed records is returned.  The status is not consulted, so a
`running` record with a stamped `end_time` (reachable via stream
exhaustion) is swept (see the counterexample). -/
theorem cleanup_spec (reg : Registry) (h now : Int) :
    (cleanupOldSessions reg h now).2 =
      List.filter (fun p => !(sweepCond h now p.2)) reg ∧
    (cleanupOldSessions reg h now).1 =
      (List.filter (fun p => sweepCond h now p.2) reg).length ∧
    (∀ p ∈ reg, sweepCond h now p.2 = false →
      p ∈ (cleanupOldSessions reg h now).2) ∧
    (∀ p ∈ reg, p.2.end_time = none →
      p ∈ (cleanupOldSessions reg h now).2) ∧
    (∀ p ∈ reg, p ∉ (cleanupOldSessions reg h now).2 →
      ∃ te, p.2.end_time = some te ∧ te < now - h * 3600) := by
  refine ⟨rfl, rfl, ?_, ?_, ?_⟩
  · intro p hp hc
    exact List.mem_filter.mpr ⟨hp, by rw [hc]; rfl⟩
  · intro p hp he
    refine List.mem_filter.mpr ⟨hp, ?_⟩
    have hc : sweepCond h now p.2 = false := by unfold sweepCond; rw [he]
    rw [hc]; rfl
  · intro p hp hnot
    cases he : p.2.end_time with
    | none =>
      exfalso
      apply hnot
      refine List.mem_filter.mpr ⟨hp, ?_⟩
      have hc : sweepCond h now p.2 = false := by unfold sweepCond; rw [he]
      rw [hc]; rfl
    | some te =>
      refine ⟨te, rfl, ?_⟩
      by_contra hlt
      apply hnot
      refine List.mem_filter.mpr ⟨hp, ?_⟩
      have hc : sweepCond h now p.2 = false := by
        unfold sweepCond; rw [he]; exact decide_eq_false hlt
      rw [hc]; rfl

/-- Claim C10: in every reachable registry state, every stored record's
`session_id` equals the key it is stored under; reachability closes the
empty registry under create, resume, cancel, delete, cleanup and the
driver's atomic steps — all the mutating operations (`list`/`get` do not
mutate the registry, so they preserve the correspondence trivially). -/
theorem session_key_correspondence (reg : Registry) (h : Reach reg) :
    ∀ p ∈ reg, p.2.session_id = p.1 :=
  reach_WellKeyed h

/-! ## Witnesses -/

/-- Witness for C1: deleting the completed session `"s1"` succeeds, reports
its prior status, and removes it. -/
theorem delete_session_spec_witness :
    lookupReg regD "s1" = some sessD ∧
    sessD.status ≠ SessionStatus.running ∧
    (deleteSession regD "s1").1 = (true, none, some SessionStatus.completed) ∧
    lookupReg (deleteSession regD "s1").2 "s1" = none := by
  have h := (delete_session_spec regD "s1").2.2 sessD rfl (by decide)
  exact ⟨rfl, by decide, h.1, h.2.2⟩

/-- Witness for C2 (amended): the running record without an engine session
id is rejected NotResumable with the registry unchanged. -/
theorem resume_rejection_spec_witness :
    lookupReg regB "s1" = some sessB ∧
    truthyOpt sessB.claude_session_id = false ∧
    resumeSession regB "s1" "p2" optsX =
      (.error ResumeError.notResumable, regB) :=
  ⟨rfl, rfl, (resume_rejection_spec regB "s1" "p2" optsX).2.1 sessB rfl rfl⟩

/-- Witness for C3 (amended): the invariant instantiated at the reachable
post-resume state. -/
theorem reach_error_result_invariant_witness :
    lookupReg regE "s1" = some sessE ∧
    ((sessE.error ≠ none →
        sessE.status = SessionStatus.error ∨
        sessE.status = SessionStatus.cancelled) ∧
     (sessE.result ≠ none → sessE.everCompleted = true)) :=
  ⟨rfl, reach_error_result_invariant regE reachE ("s1", sessE)
    (lookupReg_mem rfl)⟩

/-- Witness for C4 (amended): the never-started record `"s1"` (no
`end_time`) survives cleanup for an arbitrary age bound. -/
theorem cleanup_spec_witness :
    sessA.end_time = none ∧
    ("s1", sessA) ∈ regA ∧
    ("s1", sessA) ∈ (cleanupOldSessions regA 5 999999).2 := by
  have hm : ("s1", sessA) ∈ regA := by
    show ("s1", sessA) ∈ [("s1", sessA)]
    exact List.mem_singleton.mpr rfl
  exact ⟨rfl, hm, (cleanup_spec regA 5 999999).2.2.2.1 ("s1", sessA) hm rfl⟩

/-- Witness for C5: a run over one continuation event ends with status
still `running` and `end_time` stamped. -/
theorem stream_exhaustion_spec_witness :
    msgCont.is_error = false ∧ isFinal msgCont = false ∧
    (runAgentNoExc sessA 1 2 3 [msgCont]).status = SessionStatus.running ∧
    (runAgentNoExc sessA 1 2 3 [msgCont]).end_time = some 3 := by
  have hh : ∀ m ∈ [msgCont], m.is_error = false ∧ isFinal m = false := by
    intro m hm
    rw [List.mem_singleton.mp hm]
    exact ⟨rfl, rfl⟩
  have h := stream_exhaustion_spec sessA 1 2 3 [msgCont] hh
  exact ⟨rfl, rfl, h.1, h.2.2.2⟩

/-- Witness for C6: a terminal event after one continuation event completes
the run, populates `result`, and makes the trailing events irrelevant. -/
theorem terminal_event_spec_witness :
    msgTerm.is_error = false ∧ isFinal msgTerm = true ∧
    (runAgentNoExc sessA 1 2 3 ([msgCont] ++ msgTerm :: [msgCont])).status =
      SessionStatus.completed ∧
    (runAgentNoExc sessA 1 2 3 ([msgCont] ++ msgTerm :: [msgCont])).result =
      some (mkResultRecord msgTerm) ∧
    runAgentNoExc sessA 1 2 3 ([msgCont] ++ msgTerm :: [msgCont]) =
      runAgentNoExc sessA 1 2 3 ([msgCont] ++ [msgTerm]) := by
  have hh : ∀ m ∈ [msgCont], m.is_error = false ∧ isFinal m = false := by
    intro m hm
    rw [List.mem_singleton.mp hm]
    exact ⟨rfl, rfl⟩
  have h := terminal_event_spec sessA 1 2 3 [msgCont] [msgCont] msgTerm hh rfl rfl
  exact ⟨rfl, rfl, h.2.1, h.2.2.1, h.1⟩

/-- Witness for C7: a failing middle field is replaced by a placeholder
while both siblings are converted normally. -/
theorem serializer_isolates_field_failure_witness :
    startsUnderscore "bad" = false ∧
    serializeMessage (.vobj ([("a", PyVal.vint 1)] ++
        ("bad", PyVal.raising "boom") :: [("b", PyVal.vstr "x")])) =
      .jdict (serializeObjKVs [("a", PyVal.vint 1)] ++
        ("bad", JVal.jstr ("<value_serialization_error: " ++ "boom" ++ ">")) ::
        serializeObjKVs [("b", PyVal.vstr "x")]) :=
  ⟨rfl, serializer_isolates_field_failure
    [("a", PyVal.vint 1)] [("b", PyVal.vstr "x")] "bad" "boom" rfl⟩

/-- Witness for C8: cancelling the running session `"s1"` succeeds,
requesting the interrupt and the task cancellation. -/
theorem cancel_session_spec_witness :
    lookupReg regB "s1" = some sessB ∧
    sessB.status = SessionStatus.running ∧
    (cancelSession regB "s1" 9 true).1 = true ∧
    (cancelSession regB "s1" 9 true).2.2.interruptRequested =
      sessB.clientPresent ∧
    (cancelSession regB "s1" 9 true).2.2.taskCancelRequested =
      sessB.task.isSome := by
  have h := (cancel_session_spec regB "s1" 9 true).2.2.1 sessB rfl rfl
  exact ⟨rfl, rfl, h.1, h.2.2.2.2.1, h.2.2.2.2.2⟩

/-- Witness for C9: resuming the completed session `"s1"` keeps its id,
resets it to `pending`, appends the continuation prompt, and requests the
stale task's cancellation. -/
theorem resume_success_spec_witness :
    lookupReg regD "s1" = some sessD ∧
    (resumeSession regD "s1" "more" optsX).1 =
      .ok ⟨sessE, some ⟨false, true⟩⟩ ∧
    sessE.session_id = "s1" ∧
    sessE.status = SessionStatus.pending ∧
    sessE.error = none ∧
    sessE.prompt = sessD.prompt ++ resumeDelimiter ++ "more" := by
  have hw : WellKeyed regD := reach_WellKeyed reachD
  have h := resume_success_spec regD "s1" "more" optsX sessD
    ⟨sessE, some ⟨false, true⟩⟩ hw rfl rfl
  exact ⟨rfl, rfl, h.1, h.2.1, h.2.2.1, h.2.2.2.2.2.1⟩

/-- Witness for C10: the key correspondence instantiated at the reachable
post-resume state. -/
theorem session_key_correspondence_witness :
    lookupReg regE "s1" = some sessE ∧ sessE.session_id = "s1" :=
  ⟨rfl, session_key_correspondence regE reachE ("s1", sessE)
    (lookupReg_mem rfl)⟩

end AgentSessions
